import Mathlib

/-!
Shallow embedding of the recommendation core of `src/main.py`
(road-safety intervention ranking service).

Strings are modelled as lists of characters (`Str`); Python dictionaries
with possibly-missing keys are modelled with `Option` fields; floating
point scores are modelled as exact rationals `ℚ` (the weights 0.45, 0.25,
0.2, 0.05, 0.05 and the factor formulas are exact decimal computations).
Python truthiness of strings/lists (None and empty are falsy) is modelled
explicitly.
-/

set_option maxRecDepth 20000

namespace RoadSafety

/-- Label strings, modelled as character lists. -/
abbrev Str := List Char

/-- `normalize` (main.py 121-122): `text.strip().lower()` — strip surrounding
whitespace then lowercase each character. -/
def normalize (s : Str) : Str :=
  (((s.dropWhile Char.isWhitespace).reverse.dropWhile Char.isWhitespace).reverse).map
    Char.toLower

/-- `list_overlap` (main.py 125-128): `len({normalize x | x ∈ a} ∩ {normalize x | x ∈ b})`,
computed as the number of distinct normalized elements of `a` that also occur
as normalized elements of `b`. -/
def list_overlap (a b : List Str) : Nat :=
  ((a.map normalize).dedup.filter (fun x => decide (x ∈ b.map normalize))).length

/-- `len(set(map(normalize, l)))` (main.py 154, 157, 168): number of distinct
normalized labels of a filter list. -/
def distinctCount (l : List Str) : Nat := (l.map normalize).dedup.length

/-- `speed_in_range` (main.py 131-134): false unless the speed is given and the
range is a two-element list `[lo, hi]`; then `lo <= speed <= hi`. -/
def speed_in_range (speed : Option Int) (rng : Option (List Int)) : Bool :=
  match speed, rng with
  | some s, some [lo, hi] => decide (lo ≤ s) && decide (s ≤ hi)
  | _, _ => false

/-- WEIGHTS (main.py 112-118), issues weight. -/
def W_issues : ℚ := 45/100

/-- WEIGHTS (main.py 112-118), road_types weight. -/
def W_road_types : ℚ := 25/100

/-- WEIGHTS (main.py 112-118), environments weight. -/
def W_environments : ℚ := 20/100

/-- WEIGHTS (main.py 112-118), speed weight. -/
def W_speed : ℚ := 5/100

/-- WEIGHTS (main.py 112-118), urban_rural weight. -/
def W_urban_rural : ℚ := 5/100

/-- A bibliographic reference (main.py 71-75). -/
structure Reference where
  source : Str
  title : Str
  url : Option Str
  excerpt : Option Str
deriving DecidableEq

/-- An intervention record as stored in the document database. Only the fields
the scoring and output-trimming logic reads are modelled; a missing key
(`dict.get` default) is `none`. -/
structure Interv where
  issues : Option (List Str)
  road_types : Option (List Str)
  environments : Option (List Str)
  urban_rural : Option (List Str)
  suitable_speed_range : Option (List Int)
  references : Option (List Reference)
deriving DecidableEq

/-- The five filter fields handed to `rank_interventions` (and the `filters`
dict of `recommend`, main.py 273-279): `road_type`, `issues`, `environments`,
`speed_kmh`, `urban_rural`. -/
structure Filter where
  road_type : Option Str
  issues : List Str
  environments : List Str
  speed_kmh : Option Int
  urban_rural : Option Str
deriving DecidableEq

/-- Python truthiness of an optional list or string (None and empty are falsy). -/
def truthyList {α : Type} : Option (List α) → Bool
  | some (_ :: _) => true
  | _ => false

/-- Issues factor (main.py 150-157): when the filter issues list is non-empty,
contribute `0.45 * (overlap / len(set(map(normalize, issues))))`. -/
def issuesComponent (f : Filter) (r : Interv) : ℚ :=
  if f.issues ≠ [] then
    W_issues * ((list_overlap f.issues (r.issues.getD []) : ℚ) / (distinctCount f.issues : ℚ))
  else 0

/-- The rendered reason text `f"Matches issues: \x7boverlap\x7d/\x7bcount\x7d"` (main.py 157). -/
def mkIssuesReason (o d : Nat) : Str :=
  "Matches issues: ".toList ++ (Nat.repr o).toList ++ "/".toList ++ (Nat.repr d).toList

/-- Issues reason (main.py 156-157): appended exactly when `overlap` is truthy. -/
def issuesReason (f : Filter) (r : Interv) : Option Str :=
  if f.issues ≠ [] ∧ 0 < list_overlap f.issues (r.issues.getD []) then
    some (mkIssuesReason (list_overlap f.issues (r.issues.getD [])) (distinctCount f.issues))
  else none

/-- Road-type factor (main.py 159-163): a truthy filter road type contributes the
flat weight when it overlaps the record's `road_types`. -/
def roadComponent (f : Filter) (r : Interv) : ℚ :=
  match f.road_type with
  | some rt =>
      if rt ≠ [] ∧ 0 < list_overlap [rt] (r.road_types.getD []) then W_road_types else 0
  | none => 0

/-- Road-type reason (main.py 163). -/
def roadReason (f : Filter) (r : Interv) : Option Str :=
  match f.road_type with
  | some rt =>
      if rt ≠ [] ∧ 0 < list_overlap [rt] (r.road_types.getD []) then
        some "Applicable to specified road type".toList
      else none
  | none => none

/-- Environments factor (main.py 165-171): when the filter environments list is
non-empty, contribute `0.2 * (overlap / len(set(map(normalize, environments))))`. -/
def envComponent (f : Filter) (r : Interv) : ℚ :=
  if f.environments ≠ [] then
    W_environments *
      ((list_overlap f.environments (r.environments.getD []) : ℚ) /
        (distinctCount f.environments : ℚ))
  else 0

/-- Environments reason (main.py 170-171). -/
def envReason (f : Filter) (r : Interv) : Option Str :=
  if f.environments ≠ [] ∧ 0 < list_overlap f.environments (r.environments.getD []) then
    some "Suitable for the described environment".toList
  else none

/-- Speed factor (main.py 173-176): guarded by the speed being given and the
record's range being truthy, then `speed_in_range` decides the flat bonus. -/
def speedComponent (f : Filter) (r : Interv) : ℚ :=
  if f.speed_kmh.isSome ∧ truthyList r.suitable_speed_range ∧
      speed_in_range f.speed_kmh r.suitable_speed_range then W_speed else 0

/-- Speed reason (main.py 176). -/
def speedReason (f : Filter) (r : Interv) : Option Str :=
  if f.speed_kmh.isSome ∧ truthyList r.suitable_speed_range ∧
      speed_in_range f.speed_kmh r.suitable_speed_range then
    some "Effective within given speed range".toList
  else none

/-- Urban/rural factor (main.py 178-181): a truthy filter value contributes the
flat weight when its normalization occurs among the record's normalized
`urban_rural` labels (record value must itself be truthy). -/
def urbanComponent (f : Filter) (r : Interv) : ℚ :=
  match f.urban_rural with
  | some u =>
      if u ≠ [] ∧ truthyList r.urban_rural ∧
          normalize u ∈ (r.urban_rural.getD []).map normalize then W_urban_rural else 0
  | none => 0

/-- Urban/rural reason (main.py 181). -/
def urbanReason (f : Filter) (r : Interv) : Option Str :=
  match f.urban_rural with
  | some u =>
      if u ≠ [] ∧ truthyList r.urban_rural ∧
          normalize u ∈ (r.urban_rural.getD []).map normalize then
        some "Designed for the specified context (urban/rural)".toList
      else none
  | none => none

/-- The unrounded score accumulated by the loop body of `rank_interventions`
(main.py 148-181): the sum of the five factor contributions. -/
def scoreRaw (f : Filter) (r : Interv) : ℚ :=
  issuesComponent f r + roadComponent f r + envComponent f r + speedComponent f r +
    urbanComponent f r

/-- The reasons list accumulated by the loop body of `rank_interventions`
(main.py 149-181), in append order. -/
def reasonsOf (f : Filter) (r : Interv) : List Str :=
  (issuesReason f r).toList ++ (roadReason f r).toList ++ (envReason f r).toList ++
    (speedReason f r).toList ++ (urbanReason f r).toList

/-- `round(score, 4)` (main.py 185): round to four decimal digits. -/
def round4 (q : ℚ) : ℚ := (round (q * 10000) : ℚ) / 10000

/-- One scored entry of the `ranked` list (main.py 183-187): the record together
with its `_score` and `_reasons` fields. -/
structure Ranked where
  record : Interv
  score : ℚ
  reasons : List Str
deriving DecidableEq

/-- Build the scored entry for one record (main.py 148-187). -/
def rankOne (f : Filter) (r : Interv) : Ranked :=
  ⟨r, round4 (scoreRaw f r), reasonsOf f r⟩

/-- Insert an entry into an already-sorted (descending) list, before the first
entry whose score is `≤` its own. -/
def insertDesc (x : Ranked) : List Ranked → List Ranked
  | [] => [x]
  | y :: ys => if y.score ≤ x.score then x :: y :: ys else y :: insertDesc x ys

/-- Stable descending sort by `_score`, modelling
`ranked.sort(key=lambda x: x["_score"], reverse=True)` (main.py 189): Python's
sort is stable and `reverse=True` preserves stability, so the result is the
unique stable descending-by-score ordering, realized here by insertion sort. -/
def sortDesc : List Ranked → List Ranked
  | [] => []
  | x :: xs => insertDesc x (sortDesc xs)

/-- `rank_interventions` (main.py 137-190): score every record, then stably sort
descending by score. -/
def rank_interventions (l : List Interv) (f : Filter) : List Ranked :=
  sortDesc (l.map (rankOne f))

/-- `KNOWN_ROAD_TYPES` (main.py 99-102). -/
def KNOWN_ROAD_TYPES : List Str :=
  ["urban arterial".toList, "urban collector".toList, "local street".toList,
   "rural highway".toList, "rural arterial".toList, "expressway".toList,
   "village road".toList, "residential street".toList, "state highway".toList,
   "national highway".toList]

/-- `KNOWN_ISSUES` (main.py 103-106). -/
def KNOWN_ISSUES : List Str :=
  ["speeding".toList, "pedestrian crashes".toList, "rear-end crashes".toList,
   "run-off-road".toList, "head-on".toList, "intersection conflicts".toList,
   "nighttime visibility".toList, "overtaking".toList, "wrong-way".toList,
   "work zone safety".toList, "bicyclist safety".toList, "school zone safety".toList]

/-- `KNOWN_ENVIRONMENTS` (main.py 107-110). -/
def KNOWN_ENVIRONMENTS : List Str :=
  ["school zone".toList, "market area".toList, "mixed land use".toList, "curve".toList,
   "intersection".toList, "midblock".toList, "work zone".toList, "bridge".toList,
   "tunnel".toList, "bus stop".toList, "railway crossing".toList]

/-- `p.replace("km/h", "kmh")` (main.py 208): left-to-right replacement of every
non-overlapping occurrence of the four-character pattern. -/
def replaceKmh : Str → Str
  | 'k' :: 'm' :: '/' :: 'h' :: rest => 'k' :: 'm' :: 'h' :: replaceKmh rest
  | c :: rest => c :: replaceKmh rest
  | [] => []

/-- Python `str.split()` with no separator (main.py 208): split on whitespace
runs, discarding empty chunks. -/
def splitWs (s : Str) : List Str :=
  (s.splitOnP Char.isWhitespace).filter (fun t => decide (t ≠ []))

/-- Python `token.isdigit()` restricted to ASCII digits (main.py 209): non-empty
and all characters are digits. -/
def isIntToken (t : Str) : Bool := !t.isEmpty && t.all Char.isDigit

/-- `int(token)` for an all-digit token (main.py 210): base-10 value. -/
def digitsVal (t : Str) : Nat := t.foldl (fun n c => 10 * n + (c.toNat - 48)) 0

/-- The loop condition of the crude speed extraction (main.py 209-213): an
all-digit token whose value lies in the inclusive range [10, 130]. -/
def speedTokenOK (t : Str) : Bool :=
  isIntToken t && decide (10 ≤ digitsVal t) && decide (digitsVal t ≤ 130)

/-- The speed extraction loop of `parse_free_text` (main.py 206-213): scan the
whitespace tokens of the prompt (after the `"km/h"` → `"kmh"` replacement) and
return the value of the first token satisfying `speedTokenOK`; tokens that are
digits but out of range do not stop the scan. -/
def extractSpeed (p : Str) : Option Int :=
  ((splitWs (replaceKmh p)).find? speedTokenOK).map (fun t => (digitsVal t : Int))

/-- Python's substring containment `needle in hay` (main.py 196, 198-204):
true when `needle` occurs contiguously in `hay` (the empty needle matches). -/
def isSubstring (needle : Str) : Str → Bool
  | [] => needle.isEmpty
  | c :: rest => needle.isPrefixOf (c :: rest) || isSubstring needle rest

/-- `parse_free_text` (main.py 193-221): keyword parser over the normalized
prompt. `road_type` is the first vocabulary entry occurring as a substring;
urban takes precedence over rural; issues and environments collect every
vocabulary entry occurring as a substring. -/
def parse_free_text (prompt : Str) : Filter :=
  let p := normalize prompt
  { road_type := KNOWN_ROAD_TYPES.find? (fun rt => isSubstring rt p)
  , issues := KNOWN_ISSUES.filter (fun kw => isSubstring kw p)
  , environments := KNOWN_ENVIRONMENTS.filter (fun kw => isSubstring kw p)
  , speed_kmh := extractSpeed p
  , urban_rural :=
      if isSubstring "urban".toList p then some "urban".toList
      else if isSubstring "rural".toList p then some "rural".toList
      else none }

/-- The filter merge of `recommend` (main.py 281-287): a parsed field replaces
the explicitly supplied one exactly when the explicit one is the empty list
(for `issues`/`environments`) or `None` (for the other three). -/
def mergeFilters (explicit parsed : Filter) : Filter :=
  { road_type := if explicit.road_type = none then parsed.road_type else explicit.road_type
  , issues := if explicit.issues = [] then parsed.issues else explicit.issues
  , environments :=
      if explicit.environments = [] then parsed.environments else explicit.environments
  , speed_kmh := if explicit.speed_kmh = none then parsed.speed_kmh else explicit.speed_kmh
  , urban_rural :=
      if explicit.urban_rural = none then parsed.urban_rural else explicit.urban_rural }

/-- `max(1, min(req.top_k, 50))` (main.py 304). -/
def clampTopK (top_k : Int) : Int := max 1 (min top_k 50)

/-- `ranked[: max(1, min(req.top_k, 50))]` (main.py 304). -/
def takeTop (top_k : Int) (ranked : List Ranked) : List Ranked :=
  ranked.take (clampTopK top_k).toNat

/-- `refs[:3]` of `recommend` (main.py 309-315): at most three references are
rendered into each response item. -/
def refNotes (r : Interv) : List Reference := (r.references.getD []).take 3

/-!  ### Helper lemmas about the scoring factors -/

lemma list_overlap_le_distinctCount (a b : List Str) : list_overlap a b ≤ distinctCount a :=
  List.length_filter_le _ _

lemma distinctCount_pos {l : List Str} (h : l ≠ []) : 0 < distinctCount l := by
  unfold distinctCount
  rcases l with _ | ⟨x, xs⟩
  · exact absurd rfl h
  · refine List.length_pos.mpr fun hd => ?_
    have : (x :: xs).map normalize = [] := (List.dedup_eq_nil _).mp hd
    simp at this

lemma wratio_nonneg {w : ℚ} (hw : 0 ≤ w) (o d : Nat) : 0 ≤ w * ((o : ℚ) / (d : ℚ)) := by
  apply mul_nonneg hw
  positivity

lemma wratio_le {w : ℚ} (hw : 0 ≤ w) {o d : Nat} (h : o ≤ d) : w * ((o : ℚ) / (d : ℚ)) ≤ w := by
  rcases Nat.eq_zero_or_pos d with hd | hd
  · have ho : o = 0 := by omega
    simp [hd, ho, hw]
  · have hdq : (0 : ℚ) < (d : ℚ) := by exact_mod_cast hd
    have hr : (o : ℚ) / (d : ℚ) ≤ 1 := by
      rw [div_le_one hdq]
      exact_mod_cast h
    calc w * ((o : ℚ) / (d : ℚ)) ≤ w * 1 := mul_le_mul_of_nonneg_left hr hw
      _ = w := mul_one w

lemma wratio_pos_iff {w : ℚ} (hw : 0 < w) {o d : Nat} (hd : 0 < d) :
    0 < w * ((o : ℚ) / (d : ℚ)) ↔ 0 < o := by
  have hdq : (0 : ℚ) < (d : ℚ) := by exact_mod_cast hd
  constructor
  · intro hpos
    by_contra ho
    have : o = 0 := by omega
    rw [this] at hpos
    simp at hpos
  · intro ho
    apply mul_pos hw
    apply div_pos _ hdq
    exact_mod_cast ho

lemma issuesComponent_nonneg (f : Filter) (r : Interv) : 0 ≤ issuesComponent f r := by
  unfold issuesComponent
  by_cases h : f.issues = []
  · simp [h]
  · rw [if_pos h]
    exact wratio_nonneg (by norm_num [W_issues]) _ _

lemma issuesComponent_le (f : Filter) (r : Interv) : issuesComponent f r ≤ W_issues := by
  unfold issuesComponent
  by_cases h : f.issues = []
  · simp [h]
    norm_num [W_issues]
  · rw [if_pos h]
    exact wratio_le (by norm_num [W_issues]) (list_overlap_le_distinctCount _ _)

lemma issuesComponent_pos_iff (f : Filter) (r : Interv) :
    0 < issuesComponent f r ↔ f.issues ≠ [] ∧ 0 < list_overlap f.issues (r.issues.getD []) := by
  unfold issuesComponent
  by_cases h : f.issues = []
  · simp [h]
  · rw [if_pos h]
    rw [wratio_pos_iff (by norm_num [W_issues]) (distinctCount_pos h)]
    simp [h]

lemma envComponent_nonneg (f : Filter) (r : Interv) : 0 ≤ envComponent f r := by
  unfold envComponent
  by_cases h : f.environments = []
  · simp [h]
  · rw [if_pos h]
    exact wratio_nonneg (by norm_num [W_environments]) _ _

lemma envComponent_le (f : Filter) (r : Interv) : envComponent f r ≤ W_environments := by
  unfold envComponent
  by_cases h : f.environments = []
  · simp [h]
    norm_num [W_environments]
  · rw [if_pos h]
    exact wratio_le (by norm_num [W_environments]) (list_overlap_le_distinctCount _ _)

lemma envComponent_pos_iff (f : Filter) (r : Interv) :
    0 < envComponent f r ↔
      f.environments ≠ [] ∧ 0 < list_overlap f.environments (r.environments.getD []) := by
  unfold envComponent
  by_cases h : f.environments = []
  · simp [h]
  · rw [if_pos h]
    rw [wratio_pos_iff (by norm_num [W_environments]) (distinctCount_pos h)]
    simp [h]

lemma roadComponent_nonneg (f : Filter) (r : Interv) : 0 ≤ roadComponent f r := by
  unfold roadComponent
  rcases f.road_type with _ | rt
  · exact le_refl 0
  · dsimp only
    split
    · norm_num [W_road_types]
    · exact le_refl 0

lemma roadComponent_le (f : Filter) (r : Interv) : roadComponent f r ≤ W_road_types := by
  unfold roadComponent
  rcases f.road_type with _ | rt
  · norm_num [W_road_types]
  · dsimp only
    split
    · exact le_refl _
    · norm_num [W_road_types]

lemma speedComponent_nonneg (f : Filter) (r : Interv) : 0 ≤ speedComponent f r := by
  unfold speedComponent
  split
  · norm_num [W_speed]
  · exact le_refl 0

lemma speedComponent_le (f : Filter) (r : Interv) : speedComponent f r ≤ W_speed := by
  unfold speedComponent
  split
  · exact le_refl _
  · norm_num [W_speed]

lemma urbanComponent_nonneg (f : Filter) (r : Interv) : 0 ≤ urbanComponent f r := by
  unfold urbanComponent
  rcases f.urban_rural with _ | u
  · exact le_refl 0
  · dsimp only
    split
    · norm_num [W_urban_rural]
    · exact le_refl 0

lemma urbanComponent_le (f : Filter) (r : Interv) : urbanComponent f r ≤ W_urban_rural := by
  unfold urbanComponent
  rcases f.urban_rural with _ | u
  · norm_num [W_urban_rural]
  · dsimp only
    split
    · exact le_refl _
    · norm_num [W_urban_rural]

lemma scoreRaw_nonneg (f : Filter) (r : Interv) : 0 ≤ scoreRaw f r := by
  unfold scoreRaw
  have h1 := issuesComponent_nonneg f r
  have h2 := roadComponent_nonneg f r
  have h3 := envComponent_nonneg f r
  have h4 := speedComponent_nonneg f r
  have h5 := urbanComponent_nonneg f r
  linarith

lemma scoreRaw_le_one (f : Filter) (r : Interv) : scoreRaw f r ≤ 1 := by
  unfold scoreRaw
  have h1 := issuesComponent_le f r
  have h2 := roadComponent_le f r
  have h3 := envComponent_le f r
  have h4 := speedComponent_le f r
  have h5 := urbanComponent_le f r
  have hsum : W_issues + W_road_types + W_environments + W_speed + W_urban_rural = 1 := by
    norm_num [W_issues, W_road_types, W_environments, W_speed, W_urban_rural]
  linarith

lemma round4_nonneg {q : ℚ} (h : 0 ≤ q) : 0 ≤ round4 q := by
  unfold round4
  apply div_nonneg _ (by norm_num)
  have hz : (0 : ℤ) ≤ round (q * 10000) := by
    rw [round_eq]
    apply Int.floor_nonneg.mpr
    nlinarith
  exact_mod_cast hz

lemma round4_le_one {q : ℚ} (h : q ≤ 1) : round4 q ≤ 1 := by
  unfold round4
  rw [div_le_one (by norm_num : (0 : ℚ) < 10000)]
  have hz : round (q * 10000) ≤ 10000 := by
    rw [round_eq]
    have hlt : ⌊q * 10000 + 1 / 2⌋ < 10001 := Int.floor_lt.mpr (by push_cast; nlinarith)
    omega
  exact_mod_cast hz

/-!  ### Helper lemmas about the stable descending sort -/

lemma mem_insertDesc {x z : Ranked} : ∀ {l : List Ranked}, z ∈ insertDesc x l ↔ z = x ∨ z ∈ l := by
  intro l
  induction l with
  | nil => simp [insertDesc]
  | cons y ys ih =>
    rw [insertDesc]
    by_cases h : y.score ≤ x.score
    · simp [h]
    · rw [if_neg h]
      simp only [List.mem_cons, ih]
      tauto

lemma pairwise_insertDesc {x : Ranked} :
    ∀ {l : List Ranked}, l.Pairwise (fun a b => b.score ≤ a.score) →
      (insertDesc x l).Pairwise (fun a b => b.score ≤ a.score) := by
  intro l
  induction l with
  | nil => intro _; simp [insertDesc]
  | cons y ys ih =>
    intro h
    rw [List.pairwise_cons] at h
    obtain ⟨hy, hys⟩ := h
    rw [insertDesc]
    by_cases hc : y.score ≤ x.score
    · rw [if_pos hc]
      refine List.Pairwise.cons ?_ (List.Pairwise.cons hy hys)
      intro z hz
      rcases List.mem_cons.mp hz with rfl | hz'
      · exact hc
      · exact le_trans (hy z hz') hc
    · rw [if_neg hc]
      refine List.Pairwise.cons ?_ (ih hys)
      intro z hz
      rcases mem_insertDesc.mp hz with rfl | hz'
      · exact le_of_lt (lt_of_not_le hc)
      · exact hy z hz'

lemma filter_insertDesc (x : Ranked) (q : ℚ) :
    ∀ l : List Ranked,
      (insertDesc x l).filter (fun z => decide (z.score = q)) =
        if x.score = q then x :: l.filter (fun z => decide (z.score = q))
        else l.filter (fun z => decide (z.score = q)) := by
  intro l
  induction l with
  | nil => by_cases h : x.score = q <;> simp [insertDesc, h]
  | cons y ys ih =>
    rw [insertDesc]
    by_cases hc : y.score ≤ x.score
    · rw [if_pos hc]
      by_cases hx : x.score = q <;> simp [List.filter_cons, hx]
    · rw [if_neg hc]
      by_cases hy : y.score = q <;> by_cases hx : x.score = q
      · exact absurd (le_of_eq (hy.trans hx.symm)) hc
      · simp [List.filter_cons, hy, hx, ih]
      · simp [List.filter_cons, hy, hx, ih]
      · simp [List.filter_cons, hy, hx, ih]

lemma sortDesc_pairwise : ∀ l : List Ranked,
    (sortDesc l).Pairwise (fun a b => b.score ≤ a.score) := by
  intro l
  induction l with
  | nil => simp [sortDesc]
  | cons a as ih => exact pairwise_insertDesc ih

lemma sortDesc_filter (q : ℚ) : ∀ l : List Ranked,
    (sortDesc l).filter (fun z => decide (z.score = q)) =
      l.filter (fun z => decide (z.score = q)) := by
  intro l
  induction l with
  | nil => rfl
  | cons a as ih =>
    rw [sortDesc, filter_insertDesc, ih, List.filter_cons]
    by_cases h : a.score = q <;> simp [h]

/-!  ### Definitions taken from the specification's wording (for refinement claims) -/

/-- From the spec's words: "overlap = count of case-insensitive, trimmed, distinct
label intersections between the filter's set and the record's corresponding
label set" — the cardinality of the intersection of the two normalized label
sets. -/
def specOverlap (a b : List Str) : Nat :=
  ((a.map normalize).toFinset ∩ (b.map normalize).toFinset).card

/-- From the spec's words: the count of distinct normalized labels of a filter
list. -/
def specDistinct (a : List Str) : Nat := (a.map normalize).toFinset.card

lemma list_overlap_eq_spec (a b : List Str) : list_overlap a b = specOverlap a b := by
  unfold list_overlap specOverlap
  rw [← List.toFinset_card_of_nodup ((List.nodup_dedup (a.map normalize)).filter _)]
  congr 1
  ext x
  simp [List.mem_filter, List.mem_dedup]

lemma distinctCount_eq_spec (a : List Str) : distinctCount a = specDistinct a := by
  unfold distinctCount specDistinct
  rw [List.card_toFinset]

/-- From the claim C4's wording of the merge policy: an explicit field wins when
it is non-null/non-empty for the single-valued fields and non-empty for the
multi-valued ones. -/
def mergePolicyClaimed (explicit parsed : Filter) : Filter :=
  { road_type :=
      if truthyList explicit.road_type then explicit.road_type else parsed.road_type
  , issues := if explicit.issues ≠ [] then explicit.issues else parsed.issues
  , environments :=
      if explicit.environments ≠ [] then explicit.environments else parsed.environments
  , speed_kmh := if explicit.speed_kmh ≠ none then explicit.speed_kmh else parsed.speed_kmh
  , urban_rural :=
      if truthyList explicit.urban_rural then explicit.urban_rural else parsed.urban_rural }

/-- The merge policy the code actually implements, phrased field-wise: a
single-valued field is explicit when non-null (an explicitly supplied empty
string still wins), a multi-valued field is explicit when non-empty. -/
def mergePolicyAmended (explicit parsed : Filter) : Filter :=
  { road_type := if explicit.road_type ≠ none then explicit.road_type else parsed.road_type
  , issues := if explicit.issues ≠ [] then explicit.issues else parsed.issues
  , environments :=
      if explicit.environments ≠ [] then explicit.environments else parsed.environments
  , speed_kmh := if explicit.speed_kmh ≠ none then explicit.speed_kmh else parsed.speed_kmh
  , urban_rural :=
      if explicit.urban_rural ≠ none then explicit.urban_rural else parsed.urban_rural }

/-!  ### Miscellaneous helper lemmas -/

lemma if_none_flip {α : Type} [DecidableEq α] (o p : Option α) :
    (if o = none then p else o) = (if o ≠ none then o else p) := by
  rcases o with _ | a <;> simp

lemma if_nil_flip {α : Type} [DecidableEq α] (l p : List α) :
    (if l = [] then p else l) = (if l ≠ [] then l else p) := by
  by_cases h : l = [] <;> simp [h]

lemma speed_in_range_iff (speed : Option Int) (rng : Option (List Int)) :
    speed_in_range speed rng = true ↔
      ∃ s lo hi, speed = some s ∧ rng = some [lo, hi] ∧ lo ≤ s ∧ s ≤ hi := by
  rcases speed with _ | s
  · simp [speed_in_range]
  rcases rng with _ | rl
  · simp [speed_in_range]
  rcases rl with _ | ⟨lo, rl⟩
  · simp [speed_in_range]
  rcases rl with _ | ⟨hi, rl⟩
  · simp [speed_in_range]
  rcases rl with _ | ⟨z, rl⟩
  · simp only [speed_in_range, Bool.and_eq_true, decide_eq_true_eq]
    constructor
    · rintro ⟨h1, h2⟩
      exact ⟨s, lo, hi, rfl, rfl, h1, h2⟩
    · rintro ⟨s', lo', hi', hs, hr, h1, h2⟩
      cases hs
      cases hr
      exact ⟨h1, h2⟩
  · simp [speed_in_range]

lemma pos_ite_iff {c : Prop} [Decidable c] {w : ℚ} (hw : 0 < w) :
    (0 < if c then w else 0) ↔ c := by
  by_cases h : c <;> simp [h, hw]

lemma isSome_ite {c : Prop} [Decidable c] {s : Str} :
    (if c then some s else none).isSome = true ↔ c := by
  by_cases h : c <;> simp [h]

/-!  ### Concrete sample data used by witnesses and examples -/

/-- The filter of the spec's issues-scoring example. -/
def filterC2 : Filter :=
  ⟨none, ["speeding".toList, "pedestrian crashes".toList], [], none, none⟩

/-- The record of the spec's issues-scoring example. -/
def recordC2 : Interv :=
  ⟨some ["speeding".toList, "pedestrian crashes".toList], none, none, none, none, none⟩

/-- A record with every optional field absent. -/
def emptyInterv : Interv := ⟨none, none, none, none, none, none⟩

/-!  ### Claims -/

/-- C1: for every input sequence of records and every filter, the output of
`rank_interventions` is sorted non-increasing by score, and records with equal
scores appear in the same relative order as in the input sequence (stable
sort): for every score value, the output's entries with that score are exactly
the input's scored entries with that score, in input order. -/
theorem C1_rank_sorted_stable (l : List Interv) (f : Filter) :
    (rank_interventions l f).Pairwise (fun a b => b.score ≤ a.score) ∧
    ∀ q : ℚ, (rank_interventions l f).filter (fun z => decide (z.score = q)) =
      (l.map (rankOne f)).filter (fun z => decide (z.score = q)) := by
  exact ⟨sortDesc_pairwise _, fun q => sortDesc_filter q _⟩

/-- C2: for every record and every filter with a non-empty issues set, the
issues factor contributes exactly `0.45 * (overlap / distinct_filter_issue_count)`
where `overlap` counts the distinct case-insensitive trimmed labels common to
filter and record and `distinct_filter_issue_count` counts the distinct
normalized filter labels; the reason string
`"Matches issues: overlap/distinct_filter_issue_count"` is attached exactly
when `overlap > 0`; and the spec's example (two matching issues out of two)
contributes `0.45`. -/
theorem C2_issues_factor (f : Filter) (r : Interv) (h : f.issues ≠ []) :
    issuesComponent f r =
      W_issues *
        ((specOverlap f.issues (r.issues.getD []) : ℚ) / (specDistinct f.issues : ℚ)) ∧
    (issuesReason f r =
        some (mkIssuesReason (specOverlap f.issues (r.issues.getD []))
          (specDistinct f.issues)) ↔
      0 < specOverlap f.issues (r.issues.getD [])) ∧
    (issuesReason f r ≠ none ↔ 0 < specOverlap f.issues (r.issues.getD [])) ∧
    issuesComponent filterC2 recordC2 = 45 / 100 := by
  rw [← list_overlap_eq_spec, ← distinctCount_eq_spec]
  refine ⟨by rw [issuesComponent, if_pos h], ?_, ?_, ?_⟩
  · rw [issuesReason]
    constructor
    · intro he
      by_contra ho
      rw [if_neg (fun hc => ho hc.2)] at he
      exact Option.noConfusion he
    · intro ho
      rw [if_pos ⟨h, ho⟩]
  · rw [issuesReason]
    by_cases ho : 0 < list_overlap f.issues (r.issues.getD [])
    · rw [if_pos ⟨h, ho⟩]
      simp [ho]
    · rw [if_neg (fun hc => ho hc.2)]
      simp [ho]
  · have h1 : list_overlap filterC2.issues (recordC2.issues.getD []) = 2 := by decide
    have h2 : distinctCount filterC2.issues = 2 := by decide
    have h3 : filterC2.issues ≠ [] := by decide
    rw [issuesComponent, if_pos h3, h1, h2]
    norm_num [W_issues]

/-- C2 witness: the theorem applied to the spec's concrete example. -/
theorem C2_issues_factor_witness :
    filterC2.issues ≠ [] ∧ issuesComponent filterC2 recordC2 = 45 / 100 :=
  ⟨by decide, (C2_issues_factor filterC2 recordC2 (by decide)).2.2.2⟩

/-- C3: for every record and filter, the unrounded score and the rounded
`_score` both lie in `[0, 1]`; each factor contributes at least `0` and at most
its weight, and the five weights sum to `1`. -/
theorem C3_score_bounds (f : Filter) (r : Interv) :
    (0 ≤ scoreRaw f r ∧ scoreRaw f r ≤ 1) ∧
    (0 ≤ (rankOne f r).score ∧ (rankOne f r).score ≤ 1) ∧
    (0 ≤ issuesComponent f r ∧ issuesComponent f r ≤ W_issues) ∧
    (0 ≤ roadComponent f r ∧ roadComponent f r ≤ W_road_types) ∧
    (0 ≤ envComponent f r ∧ envComponent f r ≤ W_environments) ∧
    (0 ≤ speedComponent f r ∧ speedComponent f r ≤ W_speed) ∧
    (0 ≤ urbanComponent f r ∧ urbanComponent f r ≤ W_urban_rural) ∧
    W_issues + W_road_types + W_environments + W_speed + W_urban_rural = 1 := by
  refine ⟨⟨scoreRaw_nonneg f r, scoreRaw_le_one f r⟩, ⟨?_, ?_⟩,
    ⟨issuesComponent_nonneg f r, issuesComponent_le f r⟩,
    ⟨roadComponent_nonneg f r, roadComponent_le f r⟩,
    ⟨envComponent_nonneg f r, envComponent_le f r⟩,
    ⟨speedComponent_nonneg f r, speedComponent_le f r⟩,
    ⟨urbanComponent_nonneg f r, urbanComponent_le f r⟩, ?_⟩
  · exact round4_nonneg (scoreRaw_nonneg f r)
  · exact round4_le_one (scoreRaw_le_one f r)
  · norm_num [W_issues, W_road_types, W_environments, W_speed, W_urban_rural]

/-- An explicit filter whose `road_type` is the empty string (a legal request
value: `road_type` is an optional string, so `""` can be supplied). -/
def exC4 : Filter := ⟨some [], [], [], none, none⟩

/-- A parsed filter carrying a road type extracted from the prompt. -/
def paC4 : Filter := ⟨some "rural highway".toList, [], [], none, none⟩

/-- C4 counterexample: with an explicitly supplied *empty* `road_type` and a
parsed one, the code keeps the empty explicit string (the merge tests `is None`
only), while the claimed policy ("explicit means non-null/non-empty, so a null
or empty supplied value is replaced by the parsed value") would take the parsed
value; so the merge does not follow the claimed policy. -/
theorem C4_merge_counterexample :
    (mergeFilters exC4 paC4).road_type = some [] ∧
    (mergePolicyClaimed exC4 paC4).road_type = some "rural highway".toList ∧
    mergeFilters exC4 paC4 ≠ mergePolicyClaimed exC4 paC4 := by decide

/-- C4 (amended): the merge follows the policy in which an explicitly supplied
field wins over a parsed one, where for the single-valued fields `road_type`,
`speed_kmh`, `urban_rural` "explicit" means non-null (an explicitly supplied
empty string still wins), and for the multi-valued fields `issues` and
`environments` "explicit" means non-empty (an explicitly supplied empty set is
replaced by the parsed set, e.g. explicit issues `[]` plus parsed issues
`{"speeding"}` merges to `{"speeding"}`). -/
theorem C4_merge_amended (explicit parsed : Filter) :
    mergeFilters explicit parsed = mergePolicyAmended explicit parsed ∧
    (mergeFilters ⟨none, [], [], none, none⟩
        ⟨none, ["speeding".toList], [], none, none⟩).issues = ["speeding".toList] := by
  refine ⟨?_, by decide⟩
  unfold mergeFilters mergePolicyAmended
  rw [if_none_flip, if_none_flip, if_none_flip, if_nil_flip, if_nil_flip]

/-- C5: the parsed `speed_kmh` is `None` exactly when no whitespace token of the
normalized prompt (after replacing `"km/h"` by `"kmh"`) is an all-digit token
with value in `[10, 130]`; and it is `some n` exactly when the token list
splits as `pre ++ tok :: post` with `tok` the first such token (everything in
`pre` fails the test) and `n` its value — first match wins, the scan stops
there. -/
theorem C5_speed_first_match (p : Str) :
    ((parse_free_text p).speed_kmh = none ↔
      ∀ t ∈ splitWs (replaceKmh (normalize p)), speedTokenOK t = false) ∧
    (∀ n : Int, (parse_free_text p).speed_kmh = some n ↔
      ∃ pre tok post, splitWs (replaceKmh (normalize p)) = pre ++ tok :: post ∧
        isIntToken tok = true ∧ 10 ≤ digitsVal tok ∧ digitsVal tok ≤ 130 ∧
        n = (digitsVal tok : Int) ∧ ∀ u ∈ pre, speedTokenOK u = false) := by
  have hs : (parse_free_text p).speed_kmh = extractSpeed (normalize p) := rfl
  constructor
  · rw [hs]
    unfold extractSpeed
    rw [Option.map_eq_none']
    rw [List.find?_eq_none]
    constructor
    · intro h t ht
      have := h t ht
      simpa using this
    · intro h t ht
      simp [h t ht]
  · intro n
    rw [hs]
    unfold extractSpeed
    rw [Option.map_eq_some']
    constructor
    · rintro ⟨t, hfind, hn⟩
      rw [List.find?_eq_some] at hfind
      obtain ⟨hok, pre, post, heq, hpre⟩ := hfind
      have hok' : (isIntToken t = true ∧ 10 ≤ digitsVal t) ∧ digitsVal t ≤ 130 := by
        unfold speedTokenOK at hok
        simpa using hok
      refine ⟨pre, t, post, heq, hok'.1.1, hok'.1.2, hok'.2, hn.symm, ?_⟩
      intro u hu
      have := hpre u hu
      simpa using this
    · rintro ⟨pre, tok, post, heq, h1, h2, h3, hn, hpre⟩
      refine ⟨tok, ?_, hn.symm⟩
      rw [List.find?_eq_some]
      refine ⟨?_, pre, post, heq, ?_⟩
      · unfold speedTokenOK
        simp [h1, h2, h3]
      · intro a ha
        simp [hpre a ha]

/-- The spec's worked parser example prompt. -/
def promptC7 : Str := "speeding near a school zone at 40 km/h in urban area".toList

/-- C5 witness: the first in-range digit token of the example prompt is `40`. -/
theorem C5_speed_first_match_witness : (parse_free_text promptC7).speed_kmh = some 40 :=
  ((C5_speed_first_match promptC7).2 40).mpr
    ⟨["speeding".toList, "near".toList, "a".toList, "school".toList, "zone".toList,
      "at".toList], "40".toList,
      ["kmh".toList, "in".toList, "urban".toList, "area".toList],
      by decide, by decide, by decide, by decide, by decide, by decide⟩

/-- C6: the speed factor contributes the flat `0.05` exactly when the filter
speed is set, the record's `suitable_speed_range` is a two-element list
`[lo, hi]`, and `lo ≤ speed ≤ hi`; otherwise it contributes `0`; in particular
speed `70` against range `[50, 110]` contributes `0.05` and against
`[80, 120]` contributes `0`. -/
theorem C6_speed_factor (f : Filter) (r : Interv) :
    (speedComponent f r = W_speed ↔
      ∃ s lo hi, f.speed_kmh = some s ∧ r.suitable_speed_range = some [lo, hi] ∧
        lo ≤ s ∧ s ≤ hi) ∧
    (speedComponent f r = W_speed ∨ speedComponent f r = 0) ∧
    speedComponent ⟨none, [], [], some 70, none⟩
      ⟨none, none, none, none, some [50, 110], none⟩ = W_speed ∧
    speedComponent ⟨none, [], [], some 70, none⟩
      ⟨none, none, none, none, some [80, 120], none⟩ = 0 := by
  refine ⟨?_, ?_, ?_, ?_⟩
  · rw [speedComponent]
    by_cases h : f.speed_kmh.isSome = true ∧ truthyList r.suitable_speed_range = true ∧
        speed_in_range f.speed_kmh r.suitable_speed_range = true
    · rw [if_pos h]
      simp only [true_iff, iff_true_intro rfl]
      exact (speed_in_range_iff _ _).mp h.2.2
    · rw [if_neg h]
      constructor
      · intro h0
        exact absurd h0 (by norm_num [W_speed])
      · rintro ⟨s, lo, hi, h1, h2, h3, h4⟩
        exact absurd ⟨by rw [h1]; rfl, by rw [h2]; rfl,
          (speed_in_range_iff _ _).mpr ⟨s, lo, hi, h1, h2, h3, h4⟩⟩ h
  · rw [speedComponent]
    by_cases h : f.speed_kmh.isSome = true ∧ truthyList r.suitable_speed_range = true ∧
        speed_in_range f.speed_kmh r.suitable_speed_range = true
    · rw [if_pos h]; exact Or.inl rfl
    · rw [if_neg h]; exact Or.inr rfl
  · rw [speedComponent, if_pos (by decide)]
  · rw [speedComponent, if_neg (by decide)]

/-- C7: parsing the spec's example prompt yields exactly
issues `{"speeding"}`, environments `{"school zone"}`, `speed_kmh = 40`,
`urban_rural = "urban"` and no road type; and in general `"urban"` takes
precedence: whenever `"urban"` occurs as a substring of the normalized prompt,
the parsed `urban_rural` is `"urban"`. -/
theorem C7_parse_example :
    parse_free_text promptC7 =
      ⟨none, ["speeding".toList], ["school zone".toList], some 40, some "urban".toList⟩ ∧
    ∀ p : Str, isSubstring "urban".toList (normalize p) = true →
      (parse_free_text p).urban_rural = some "urban".toList := by
  constructor
  · decide
  · intro p h
    unfold parse_free_text
    simp only []
    rw [if_pos (show isSubstring "urban".toList (normalize p) = true from h)]

/-- C7 witness: the urban-precedence part applied to the example prompt. -/
theorem C7_parse_example_witness :
    (parse_free_text promptC7).urban_rural = some "urban".toList :=
  C7_parse_example.2 promptC7 (by decide)

/-- C8: the requested `top_k` is silently clamped into `[1, 50]`: a zero or
negative `top_k` yields exactly one result when any record exists, any `top_k`
yields at most 50 results, and each returned item carries at most 3 references. -/
theorem C8_topk_clamped (k : Int) (ranked : List Ranked) (r : Interv) :
    1 ≤ clampTopK k ∧ clampTopK k ≤ 50 ∧
    (k ≤ 0 → ranked ≠ [] → (takeTop k ranked).length = 1) ∧
    (takeTop k ranked).length ≤ 50 ∧
    (refNotes r).length ≤ 3 := by
  have hlo : 1 ≤ clampTopK k := le_max_left 1 _
  have hhi : clampTopK k ≤ 50 := max_le (by norm_num) (min_le_right k 50)
  refine ⟨hlo, hhi, ?_, ?_, ?_⟩
  · intro hk hne
    have hc : clampTopK k = 1 := by
      unfold clampTopK
      rw [min_eq_left (le_trans hk (by norm_num))]
      exact max_eq_left (le_trans hk (by norm_num))
    unfold takeTop
    rw [hc, List.length_take]
    have : 0 < ranked.length := List.length_pos.mpr hne
    omega
  · unfold takeTop
    rw [List.length_take]
    have h50 : (clampTopK k).toNat ≤ 50 := by omega
    exact le_trans (min_le_left _ _) h50
  · unfold refNotes
    rw [List.length_take]
    exact min_le_left _ _

/-- C8 witness: requesting `top_k = 0` over a one-record list yields one result,
and the rendered references of a record are at most 3. -/
theorem C8_topk_clamped_witness :
    (takeTop 0 [Ranked.mk emptyInterv 0 []]).length = 1 ∧
    (refNotes emptyInterv).length ≤ 3 :=
  ⟨(C8_topk_clamped 0 [Ranked.mk emptyInterv 0 []] emptyInterv).2.2.1 (le_refl 0)
      (by simp),
   (C8_topk_clamped 0 [Ranked.mk emptyInterv 0 []] emptyInterv).2.2.2.2⟩

/-- C9: a record from which an expected label sequence is missing is treated as
carrying the empty set: the corresponding factor has zero overlap and
contributes zero to the score (the scoring functions are total, so no error is
possible). -/
theorem C9_missing_fields (f : Filter) (r : Interv) :
    (r.issues = none →
      list_overlap f.issues (r.issues.getD []) = 0 ∧ issuesComponent f r = 0) ∧
    (r.road_types = none → roadComponent f r = 0) ∧
    (r.environments = none →
      list_overlap f.environments (r.environments.getD []) = 0 ∧ envComponent f r = 0) ∧
    (r.urban_rural = none → urbanComponent f r = 0) ∧
    (r.suitable_speed_range = none → speedComponent f r = 0) := by
  refine ⟨?_, ?_, ?_, ?_, ?_⟩
  · intro h
    have ho : list_overlap f.issues (r.issues.getD []) = 0 := by
      rw [h]
      simp [list_overlap]
    refine ⟨ho, ?_⟩
    unfold issuesComponent
    rw [ho]
    simp
  · intro h
    unfold roadComponent
    rcases f.road_type with _ | rt
    · rfl
    · have ho : list_overlap [rt] (r.road_types.getD []) = 0 := by
        rw [h]
        simp [list_overlap]
      simp [ho]
  · intro h
    have ho : list_overlap f.environments (r.environments.getD []) = 0 := by
      rw [h]
      simp [list_overlap]
    refine ⟨ho, ?_⟩
    unfold envComponent
    rw [ho]
    simp
  · intro h
    unfold urbanComponent
    rcases f.urban_rural with _ | u
    · rfl
    · simp [h, truthyList]
  · intro h
    unfold speedComponent
    simp [h, truthyList]

/-- C9 witness: the theorem applied to a record with every field missing. -/
theorem C9_missing_fields_witness :
    (list_overlap filterC2.issues (emptyInterv.issues.getD []) = 0 ∧
      issuesComponent filterC2 emptyInterv = 0) ∧
    roadComponent filterC2 emptyInterv = 0 ∧
    (list_overlap filterC2.environments (emptyInterv.environments.getD []) = 0 ∧
      envComponent filterC2 emptyInterv = 0) ∧
    urbanComponent filterC2 emptyInterv = 0 ∧
    speedComponent filterC2 emptyInterv = 0 :=
  ⟨(C9_missing_fields filterC2 emptyInterv).1 rfl,
   (C9_missing_fields filterC2 emptyInterv).2.1 rfl,
   (C9_missing_fields filterC2 emptyInterv).2.2.1 rfl,
   (C9_missing_fields filterC2 emptyInterv).2.2.2.1 rfl,
   (C9_missing_fields filterC2 emptyInterv).2.2.2.2 rfl⟩

lemma sum_pos_iff_of_nonneg {a b : ℚ} (ha : 0 ≤ a) (hb : 0 ≤ b) :
    0 < a + b ↔ 0 < a ∨ 0 < b := by
  constructor
  · intro h
    by_contra hc
    push_neg at hc
    linarith [hc.1, hc.2]
  · rintro (h | h) <;> linarith

/-- C10: each of the five reason strings is attached exactly when its factor
contributes a strictly positive amount; consequently the reasons list is
non-empty exactly when the unrounded score is strictly positive. -/
theorem C10_reasons_iff_positive (f : Filter) (r : Interv) :
    ((issuesReason f r).isSome = true ↔ 0 < issuesComponent f r) ∧
    ((roadReason f r).isSome = true ↔ 0 < roadComponent f r) ∧
    ((envReason f r).isSome = true ↔ 0 < envComponent f r) ∧
    ((speedReason f r).isSome = true ↔ 0 < speedComponent f r) ∧
    ((urbanReason f r).isSome = true ↔ 0 < urbanComponent f r) ∧
    (reasonsOf f r ≠ [] ↔ 0 < scoreRaw f r) := by
  have hIss : (issuesReason f r).isSome = true ↔ 0 < issuesComponent f r := by
    rw [issuesComponent_pos_iff]
    unfold issuesReason
    exact isSome_ite
  have hRoad : (roadReason f r).isSome = true ↔ 0 < roadComponent f r := by
    unfold roadReason roadComponent
    rcases f.road_type with _ | rt
    · simp
    · rw [isSome_ite, pos_ite_iff (by norm_num [W_road_types] : (0 : ℚ) < W_road_types)]
  have hEnv : (envReason f r).isSome = true ↔ 0 < envComponent f r := by
    rw [envComponent_pos_iff]
    unfold envReason
    exact isSome_ite
  have hSpeed : (speedReason f r).isSome = true ↔ 0 < speedComponent f r := by
    unfold speedReason speedComponent
    rw [isSome_ite, pos_ite_iff (by norm_num [W_speed] : (0 : ℚ) < W_speed)]
  have hUrban : (urbanReason f r).isSome = true ↔ 0 < urbanComponent f r := by
    unfold urbanReason urbanComponent
    rcases f.urban_rural with _ | u
    · simp
    · rw [isSome_ite, pos_ite_iff (by norm_num [W_urban_rural] : (0 : ℚ) < W_urban_rural)]
  refine ⟨hIss, hRoad, hEnv, hSpeed, hUrban, ?_⟩
  have hsplit : reasonsOf f r ≠ [] ↔
      ((issuesReason f r).isSome = true ∨ (roadReason f r).isSome = true ∨
        (envReason f r).isSome = true ∨ (speedReason f r).isSome = true ∨
        (urbanReason f r).isSome = true) := by
    unfold reasonsOf
    rcases issuesReason f r with _ | a <;> rcases roadReason f r with _ | b <;>
      rcases envReason f r with _ | c <;> rcases speedReason f r with _ | d <;>
      rcases urbanReason f r with _ | e <;> simp
  have hscore : 0 < scoreRaw f r ↔
      (0 < issuesComponent f r ∨ 0 < roadComponent f r ∨ 0 < envComponent f r ∨
        0 < speedComponent f r ∨ 0 < urbanComponent f r) := by
    unfold scoreRaw
    rw [show issuesComponent f r + roadComponent f r + envComponent f r +
        speedComponent f r + urbanComponent f r =
        issuesComponent f r + (roadComponent f r + (envComponent f r +
          (speedComponent f r + urbanComponent f r))) from by ring]
    rw [sum_pos_iff_of_nonneg (issuesComponent_nonneg f r)
      (by linarith [roadComponent_nonneg f r, envComponent_nonneg f r,
        speedComponent_nonneg f r, urbanComponent_nonneg f r])]
    rw [sum_pos_iff_of_nonneg (roadComponent_nonneg f r)
      (by linarith [envComponent_nonneg f r, speedComponent_nonneg f r,
        urbanComponent_nonneg f r])]
    rw [sum_pos_iff_of_nonneg (envComponent_nonneg f r)
      (by linarith [speedComponent_nonneg f r, urbanComponent_nonneg f r])]
    rw [sum_pos_iff_of_nonneg (speedComponent_nonneg f r) (urbanComponent_nonneg f r)]
  rw [hsplit, hscore, hIss, hRoad, hEnv, hSpeed, hUrban]

end RoadSafety
